import Mathlib

/-!
Shallow embedding of the backtesting engine in `modules/backtester.py`.

Conventions of the embedding:
* Python floats are modelled as rationals (`ℚ`); the claims under study are
  about control flow and exact algebra, not float rounding.
* `datetime` timestamps are modelled by the bar's position in the series
  (`Nat`), matching how `run_backtest` uses `df.index[i]`.
* `np.sqrt`/`np.std` appear only inside the Sharpe/Sortino ratios; the square
  root on floats is not rational, so the statistics are parameterised by an
  arbitrary `sqrtQ : ℚ → ℚ` standing for `np.sqrt`.  Sample standard deviation
  `np.std l` is `sqrtQ (varQ l)` with `varQ` the population variance, exactly
  as numpy computes it.
* Python exceptions are modelled by `Option`: `run_backtest` returns `none`
  where the source raises (`df.index[0]` on an empty frame).
-/

/-- Trade direction; the source uses the strings 'LONG' and 'SHORT'. -/
inductive Side where
  | LONG : Side
  | SHORT : Side
deriving DecidableEq, Repr, Inhabited

/-- One row of the indicator-augmented OHLCV DataFrame, with the columns the
engine and the EMA-crossover evaluators read. -/
structure Row where
  high : ℚ := 0
  low : ℚ := 0
  close : ℚ := 0
  volume : ℚ := 0
  ema_8 : ℚ := 0
  ema_21 : ℚ := 0
  ema_50 : ℚ := 0
  ema_200 : ℚ := 0
  rsi : ℚ := 0
  atr : ℚ := 0
  volume_ma : ℚ := 0
deriving DecidableEq, Repr, Inhabited

/-- Mirror of the `BacktestTrade` dataclass. -/
structure BacktestTrade where
  entry_time : Nat
  exit_time : Option Nat := none
  symbol : String
  side : Side
  entry_price : ℚ
  exit_price : Option ℚ := none
  stop_loss : ℚ
  take_profits : List ℚ
  position_size : ℚ
  pnl : ℚ := 0
  pnl_percent : ℚ := 0
  r_multiple : ℚ := 0
  exit_reason : String := ""
  fees : ℚ := 0
  status : String := "OPEN"
deriving DecidableEq, Repr

/-- Constructor parameters of `Backtester.__init__` (immutable configuration). -/
structure Config where
  initial_capital : ℚ := 10000
  risk_per_trade : ℚ := 0.015
  fee_percent : ℚ := 0.0004
  slippage_percent : ℚ := 0.0005
deriving DecidableEq, Repr, Inhabited

/-- The mutable instance state of a `Backtester`
(`capital`, `equity_curve`, `equity_dates`, `trades`, `open_trades`). -/
structure BtState where
  capital : ℚ
  equity_curve : List ℚ
  equity_dates : List Nat
  trades : List BacktestTrade
  open_trades : List BacktestTrade
deriving DecidableEq, Repr

/-- A signal dict as produced by the evaluators
(`side`, `entry_price`, `stop_loss`, `take_profits`, `confirmations`). -/
structure SignalProposal where
  side : Side
  entry_price : ℚ
  stop_loss : ℚ
  take_profits : List ℚ
  confirmations : Nat := 0
deriving DecidableEq, Repr

/-- Mirror of `Backtester.calculate_position_size`: risk per unit is the
side-signed distance between entry and stop; non-positive risk per unit
yields size 0, otherwise `capital * risk_per_trade / risk_per_unit`. -/
def calculate_position_size (cfg : Config) (capital entry_price stop_loss : ℚ)
    (side : Side) : ℚ :=
  let risk_per_unit :=
    if side = Side.LONG then entry_price - stop_loss else stop_loss - entry_price
  if risk_per_unit ≤ 0 then 0
  else
    let risk_amount := capital * cfg.risk_per_trade
    risk_amount / risk_per_unit

/-- Mirror of `Backtester.enter_trade`: degenerate size is a silent no-op;
otherwise slippage is applied adversely, the entry fee is charged into the
trade record, and the OPEN trade is appended to `open_trades`. -/
def enter_trade (cfg : Config) (st : BtState) (timestamp : Nat) (symbol : String)
    (side : Side) (entry_price stop_loss : ℚ) (take_profits : List ℚ) : BtState :=
  let position_size := calculate_position_size cfg st.capital entry_price stop_loss side
  if position_size ≤ 0 then st
  else
    let entry_price :=
      if side = Side.LONG then entry_price * (1 + cfg.slippage_percent)
      else entry_price * (1 - cfg.slippage_percent)
    let entry_fees := position_size * entry_price * cfg.fee_percent
    let trade : BacktestTrade :=
      { entry_time := timestamp
        symbol := symbol
        side := side
        entry_price := entry_price
        stop_loss := stop_loss
        take_profits := take_profits
        position_size := position_size
        fees := entry_fees
        status := "OPEN" }
    { st with open_trades := st.open_trades ++ [trade] }

/-- Mirror of `Backtester._exit_trade`: apply adverse exit slippage, charge the
exit fee, net the P&L (gross minus entry+exit fees), fill in the exit fields,
add the P&L to capital and move the trade from `open_trades` to `trades`. -/
def exit_trade (cfg : Config) (st : BtState) (trade : BacktestTrade)
    (exit_price : ℚ) (timestamp : Nat) (reason : String) : BtState :=
  let exit_price :=
    if trade.side = Side.LONG then exit_price * (1 - cfg.slippage_percent)
    else exit_price * (1 + cfg.slippage_percent)
  let exit_fees := trade.position_size * exit_price * cfg.fee_percent
  let gross :=
    if trade.side = Side.LONG then (exit_price - trade.entry_price) * trade.position_size
    else (trade.entry_price - exit_price) * trade.position_size
  let pnl := gross - (trade.fees + exit_fees)
  let risk_amount := st.capital * cfg.risk_per_trade
  let r_multiple := if 0 < risk_amount then pnl / risk_amount else 0
  let closed : BacktestTrade :=
    { trade with
        exit_time := some timestamp
        exit_price := some exit_price
        pnl := pnl
        pnl_percent := pnl / (trade.position_size * trade.entry_price) * 100
        r_multiple := r_multiple
        exit_reason := reason
        fees := trade.fees + exit_fees
        status := "CLOSED" }
  { st with
      capital := st.capital + pnl
      trades := st.trades ++ [closed]
      open_trades := st.open_trades.erase trade }

/-- The take-profit loop of `check_exit` for LONG trades:
`for i, tp in enumerate(take_profits): if high >= tp: ...` — the first level
whose price the bar's high reaches wins, together with its index. -/
def firstTPHitLong (high : ℚ) : List ℚ → Nat → Option (Nat × ℚ)
  | [], _ => none
  | tp :: rest, i => if high ≥ tp then some (i, tp) else firstTPHitLong high rest (i + 1)

/-- The take-profit loop of `check_exit` for SHORT trades (`low <= tp`). -/
def firstTPHitShort (low : ℚ) : List ℚ → Nat → Option (Nat × ℚ)
  | [], _ => none
  | tp :: rest, i => if low ≤ tp then some (i, tp) else firstTPHitShort low rest (i + 1)

/-- Mirror of `Backtester.check_exit`: the stop-loss comparison runs before the
take-profit loop on both sides; `current_price` (the close) is received but
never read, exactly as in the source. -/
def check_exit (cfg : Config) (st : BtState) (trade : BacktestTrade)
    (current_price high low : ℚ) (timestamp : Nat) : BtState × Bool :=
  if trade.side = Side.LONG then
    if low ≤ trade.stop_loss then
      (exit_trade cfg st trade trade.stop_loss timestamp "STOP_LOSS", true)
    else
      match firstTPHitLong high trade.take_profits 0 with
      | some (i, tp) => (exit_trade cfg st trade tp timestamp ("TP" ++ toString (i + 1)), true)
      | none => (st, false)
  else
    if trade.stop_loss ≤ high then
      (exit_trade cfg st trade trade.stop_loss timestamp "STOP_LOSS", true)
    else
      match firstTPHitShort low trade.take_profits 0 with
      | some (i, tp) => (exit_trade cfg st trade tp timestamp ("TP" ++ toString (i + 1)), true)
      | none => (st, false)

/-- C1: for an open LONG trade, whenever the bar's low reaches the stop,
`check_exit` exits via `_exit_trade` at exactly the stop price with reason
STOP_LOSS — the take-profit loop is never consulted, so the stop wins even
when a take-profit condition also holds on the same bar; symmetrically for
SHORT with the bar's high against the stop. -/
theorem check_exit_stop_loss_priority (cfg : Config) (st : BtState)
    (trade : BacktestTrade) (current_price high low : ℚ) (timestamp : Nat) :
    (trade.side = Side.LONG → low ≤ trade.stop_loss →
      check_exit cfg st trade current_price high low timestamp =
        (exit_trade cfg st trade trade.stop_loss timestamp "STOP_LOSS", true)) ∧
    (trade.side = Side.SHORT → trade.stop_loss ≤ high →
      check_exit cfg st trade current_price high low timestamp =
        (exit_trade cfg st trade trade.stop_loss timestamp "STOP_LOSS", true)) := by
  constructor
  · intro hside hstop
    simp [check_exit, hside, hstop]
  · intro hside hstop
    simp [check_exit, hside, hstop]

/-- Witness for C1, spec Scenario 1: LONG entry 100, stop 98, TP1 103; a bar
with low 97 and high 99 exits at the stop price 98 with reason STOP_LOSS. -/
def tradeScenario1 : BacktestTrade :=
  { entry_time := 0
    symbol := "BTCUSDT"
    side := Side.LONG
    entry_price := 100
    stop_loss := 98
    take_profits := [103]
    position_size := 50 }

/-- Concrete empty-run state used by several witnesses. -/
def stateW : BtState :=
  { capital := 10000
    equity_curve := [10000]
    equity_dates := [0]
    trades := []
    open_trades := [tradeScenario1] }

theorem check_exit_stop_loss_priority_witness :
    check_exit { } stateW tradeScenario1 99 99 97 1 =
      (exit_trade { } stateW tradeScenario1 98 1 "STOP_LOSS", true) :=
  (check_exit_stop_loss_priority { } stateW tradeScenario1 99 99 97 1).1
    (by decide) (by decide)

theorem firstTPHitLong_first_wins (high : ℚ) :
    ∀ (tps : List ℚ) (k i : Nat) (tp : ℚ),
      tps[i]? = some tp → tp ≤ high →
      (∀ j, j < i → ∀ tpj, tps[j]? = some tpj → high < tpj) →
      firstTPHitLong high tps k = some (k + i, tp) := by
  intro tps
  induction tps with
  | nil => intro k i tp h; simp at h
  | cons t rest ih =>
    intro k i tp hget hle hbefore
    cases i with
    | zero =>
      simp at hget
      subst hget
      simp [firstTPHitLong, hle]
    | succ i' =>
      have hmiss : high < t := hbefore 0 (Nat.succ_pos i') t (by simp)
      have hrec := ih (k + 1) i' tp (by simpa using hget) hle
        (fun j hj tpj hg => hbefore (j + 1) (Nat.succ_lt_succ hj) tpj (by simpa using hg))
      have : ¬ high ≥ t := not_le.mpr hmiss
      simp [firstTPHitLong, this, hrec, Nat.add_assoc, Nat.add_comm 1 i']

/-- C2: for an open LONG trade whose stop is not hit on the bar, if `tp` is
the first take-profit level (index `i`, ascending scan from TP1) with
`high ≥ tp`, then `check_exit` exits the whole trade via `_exit_trade` at
exactly that level's price with reason `TP(i+1)` — not at the bar close and
not at any later level. -/
theorem check_exit_first_tp_wins (cfg : Config) (st : BtState)
    (trade : BacktestTrade) (current_price high low : ℚ) (timestamp : Nat)
    (i : Nat) (tp : ℚ)
    (hside : trade.side = Side.LONG)
    (hstop : ¬ low ≤ trade.stop_loss)
    (hget : trade.take_profits[i]? = some tp)
    (hhit : tp ≤ high)
    (hfirst : ∀ j, j < i → ∀ tpj, trade.take_profits[j]? = some tpj → high < tpj) :
    check_exit cfg st trade current_price high low timestamp =
      (exit_trade cfg st trade tp timestamp ("TP" ++ toString (i + 1)), true) := by
  have hfind := firstTPHitLong_first_wins high trade.take_profits 0 i tp hget hhit hfirst
  simp [check_exit, hside, hstop, hfind]

/-- Witness trade for C2, spec Scenario 2: LONG entry 100, stop 98,
TP1 103, TP2 105. -/
def tradeScenario2 : BacktestTrade :=
  { entry_time := 0
    symbol := "BTCUSDT"
    side := Side.LONG
    entry_price := 100
    stop_loss := 98
    take_profits := [103, 105]
    position_size := 50 }

def stateW2 : BtState :=
  { capital := 10000
    equity_curve := [10000]
    equity_dates := [0]
    trades := []
    open_trades := [tradeScenario2] }

theorem check_exit_first_tp_wins_witness :
    check_exit { } stateW2 tradeScenario2 104 106 99 1 =
      (exit_trade { } stateW2 tradeScenario2 103 1 "TP1", true) := by
  have h := check_exit_first_tp_wins { } stateW2 tradeScenario2 104 106 99 1 0 103
    (by decide) (by decide) (by decide) (by decide)
    (fun j hj tpj hg => absurd hj (Nat.not_lt_zero j))
  simpa using h

/-- Counterexample to C3 as stated: with capital 10000, risk fraction 1%, a
LONG whose stop (100) is above its entry (98) sizes to 0, while the claimed
formula `(capital * risk) / |entry - stop|` gives 50. -/
theorem calculate_position_size_not_abs :
    calculate_position_size { risk_per_trade := 1/100 } 10000 98 100 Side.LONG = 0 ∧
    10000 * ((1 : ℚ)/100) / |(98 : ℚ) - 100| = 50 := by
  constructor
  · norm_num [calculate_position_size]
  · norm_num [abs_of_nonpos]

/-- C3 (amended): the position-sizing operation divides the risk amount
`capital * risk_per_trade` by the side-signed risk per unit (`entry - stop`
for LONG, `stop - entry` for SHORT) and returns 0 whenever that risk per unit
is not positive — in particular when entry equals stop. -/
theorem calculate_position_size_spec (cfg : Config) (capital entry_price stop_loss : ℚ) :
    (0 < entry_price - stop_loss →
      calculate_position_size cfg capital entry_price stop_loss Side.LONG =
        capital * cfg.risk_per_trade / (entry_price - stop_loss)) ∧
    (entry_price - stop_loss ≤ 0 →
      calculate_position_size cfg capital entry_price stop_loss Side.LONG = 0) ∧
    (0 < stop_loss - entry_price →
      calculate_position_size cfg capital entry_price stop_loss Side.SHORT =
        capital * cfg.risk_per_trade / (stop_loss - entry_price)) ∧
    (stop_loss - entry_price ≤ 0 →
      calculate_position_size cfg capital entry_price stop_loss Side.SHORT = 0) := by
  refine ⟨fun h => ?_, fun h => ?_, fun h => ?_, fun h => ?_⟩
  · simp [calculate_position_size, not_le.mpr h]
  · simp [calculate_position_size, h]
  · simp [calculate_position_size, not_le.mpr h]
  · simp [calculate_position_size, h]

/-- Witness for C3 (amended), spec Scenario 3: capital 10000, risk 1%,
LONG entry 100, stop 98 sizes to (10000*0.01)/2 = 50. -/
theorem calculate_position_size_spec_witness :
    calculate_position_size { risk_per_trade := 1/100 } 10000 100 98 Side.LONG = 50 := by
  have h := (calculate_position_size_spec { risk_per_trade := 1/100 } 10000 100 98).1
    (by norm_num)
  rw [h]
  norm_num

/-- Mirror of the state reset at the top of `Backtester.run_backtest`
(`self.capital = self.initial_capital`, seeded equity curve, cleared trade
lists); `equity_dates` is seeded with the first bar's index, which is 0 in
the index-as-timestamp model. -/
def resetState (cfg : Config) : BtState :=
  { capital := cfg.initial_capital
    equity_curve := [cfg.initial_capital]
    equity_dates := [0]
    trades := []
    open_trades := []
  }

/-- The exit-resolution phase of one bar of `run_backtest`:
`for trade in self.open_trades.copy(): self.check_exit(...)` — a fold of
`check_exit` over a snapshot of the open-trade list. -/
def exitsPhase (cfg : Config) (row : Row) (i : Nat) (st : BtState) : BtState :=
  st.open_trades.foldl
    (fun s t => (check_exit cfg s t row.close row.high row.low i).1) st

/-- The signal phase of one bar of `run_backtest`: from bar index 200 on,
query the evaluator on the prefix `df.iloc[:i+1]` and enter only when no
position is open (max 1 position). -/
def signalPhase (cfg : Config) (symbol : String) (bars : List Row)
    (f : List Row → Option SignalProposal) (i : Nat) (st : BtState) : BtState :=
  if 200 ≤ i then
    match f (bars.take (i + 1)) with
    | some sig =>
      if st.open_trades.length = 0 then
        enter_trade cfg st i symbol sig.side sig.entry_price sig.stop_loss sig.take_profits
      else st
    | none => st
  else st

/-- One iteration of the bar loop in `run_backtest`: resolve exits over a
snapshot of `open_trades`, then maybe enter, then append the current capital
to the equity curve. -/
def processBar (cfg : Config) (symbol : String) (bars : List Row)
    (f : List Row → Option SignalProposal) (st : BtState) (i : Nat) (row : Row) :
    BtState :=
  let st1 := exitsPhase cfg row i st
  let st2 := signalPhase cfg symbol bars f i st1
  { st2 with
      equity_curve := st2.equity_curve ++ [st2.capital]
      equity_dates := st2.equity_dates ++ [i] }

/-- State of the replay after the first `n` bars of the loop, starting from
the reset state. -/
def loopState (cfg : Config) (symbol : String) (bars : List Row)
    (f : List Row → Option SignalProposal) (n : Nat) : BtState :=
  (bars.enum.take n).foldl (fun s p => processBar cfg symbol bars f s p.1 p.2)
    (resetState cfg)

/-- The force-close pass at the end of `run_backtest`: every still-open trade
is exited at the last bar's close with reason END_OF_DATA. -/
def closeAllOpen (cfg : Config) (st : BtState) (lastClose : ℚ) (lastTs : Nat) :
    BtState :=
  st.open_trades.foldl (fun s t => exit_trade cfg s t lastClose lastTs "END_OF_DATA") st

/-- Mean as numpy computes it: sum divided by length. -/
def meanQ (l : List ℚ) : ℚ := l.sum / l.length

/-- Population variance (the square of `np.std`). -/
def varQ (l : List ℚ) : ℚ := meanQ (l.map (fun x => (x - meanQ l) ^ 2))

/-- Model of `np.std`: square root of the population variance, with the float
square root given as a parameter `sqrtQ`. -/
def stdQ (sqrtQ : ℚ → ℚ) (l : List ℚ) : ℚ := sqrtQ (varQ l)

/-- Python's `min` over a list, with 0 for the empty list (the engine only
applies it to non-empty curves; `largest_loss` uses `default=0` explicitly). -/
def minQ : List ℚ → ℚ
  | [] => 0
  | x :: xs => xs.foldl min x

/-- Python's `max` with `default=0`. -/
def maxQ : List ℚ → ℚ
  | [] => 0
  | x :: xs => xs.foldl max x

def runningMaxAux (m : ℚ) : List ℚ → List ℚ
  | [] => []
  | x :: xs => (max m x) :: runningMaxAux (max m x) xs

/-- Mirror of `np.maximum.accumulate`. -/
def runningMax (l : List ℚ) : List ℚ :=
  match l with
  | [] => []
  | x :: xs => x :: runningMaxAux x xs

/-- Bar-over-bar equity returns, `np.diff(equity) / equity[:-1]`. -/
def returnsOf (equity : List ℚ) : List ℚ :=
  List.zipWith (fun prev next => (next - prev) / prev) equity equity.tail

/-- Percent drawdown curve `(equity - running_max) / running_max * 100`. -/
def drawdownCurve (equity : List ℚ) : List ℚ :=
  List.zipWith (fun e m => (e - m) / m * 100) equity (runningMax equity)

/-- Gross profit: sum of P&L over winning trades. -/
def gross_profit_of (trades : List BacktestTrade) : ℚ :=
  ((trades.filter fun t => 0 < t.pnl).map BacktestTrade.pnl).sum

/-- Gross loss: absolute sum of P&L over losing trades. -/
def gross_loss_of (trades : List BacktestTrade) : ℚ :=
  |((trades.filter fun t => t.pnl < 0).map BacktestTrade.pnl).sum|

/-- Mirror of the `BacktestResult` dataclass; datetimes are bar indices. -/
structure BacktestResult where
  symbol : String
  timeframe : String
  start_date : Nat
  end_date : Nat
  duration_days : Nat
  initial_capital : ℚ
  final_capital : ℚ
  total_return : ℚ
  total_return_percent : ℚ
  total_trades : Nat
  winning_trades : Nat
  losing_trades : Nat
  breakeven_trades : Nat
  win_rate : ℚ
  gross_profit : ℚ
  gross_loss : ℚ
  net_profit : ℚ
  profit_factor : ℚ
  average_win : ℚ
  average_loss : ℚ
  average_rr : ℚ
  largest_win : ℚ
  largest_loss : ℚ
  max_drawdown : ℚ
  max_drawdown_percent : ℚ
  sharpe_ratio : ℚ
  sortino_ratio : ℚ
  calmar_ratio : ℚ
  equity_curve : List ℚ
  equity_dates : List Nat
  drawdown_curve : List ℚ
  trades : List BacktestTrade

/-- Mirror of `Backtester._calculate_results`: every ratio guards its
denominator and falls back to 0, exactly as in the source. -/
def calculate_results (cfg : Config) (sqrtQ : ℚ → ℚ) (st : BtState)
    (bars : List Row) (symbol timeframe : String) : BacktestResult :=
  let total_trades := st.trades.length
  let winning_trades := (st.trades.filter fun t => 0 < t.pnl).length
  let losing_trades := (st.trades.filter fun t => t.pnl < 0).length
  let breakeven_trades := (st.trades.filter fun t => t.pnl = 0).length
  let win_rate : ℚ :=
    if 0 < total_trades then (winning_trades : ℚ) / (total_trades : ℚ) * 100 else 0
  let gross_profit := gross_profit_of st.trades
  let gross_loss := gross_loss_of st.trades
  let net_profit := st.capital - cfg.initial_capital
  let profit_factor := if 0 < gross_loss then gross_profit / gross_loss else 0
  let average_win := if 0 < winning_trades then gross_profit / (winning_trades : ℚ) else 0
  let average_loss := if 0 < losing_trades then gross_loss / (losing_trades : ℚ) else 0
  let average_rr := if st.trades ≠ [] then meanQ (st.trades.map BacktestTrade.r_multiple) else 0
  let largest_win := maxQ (st.trades.map BacktestTrade.pnl)
  let largest_loss := minQ (st.trades.map BacktestTrade.pnl)
  let equity := st.equity_curve
  let drawdown := drawdownCurve equity
  let max_drawdown_percent := |minQ drawdown|
  let max_drawdown := |minQ (List.zipWith (fun e m => e - m) equity (runningMax equity))|
  let returns := returnsOf equity
  let sharpe_ratio :=
    if 0 < returns.length ∧ 0 < stdQ sqrtQ returns then
      meanQ returns / stdQ sqrtQ returns * sqrtQ 252
    else 0
  let negative_returns := returns.filter fun r => r < 0
  let sortino_ratio :=
    if 0 < negative_returns.length ∧ 0 < stdQ sqrtQ negative_returns then
      meanQ returns / stdQ sqrtQ negative_returns * sqrtQ 252
    else 0
  let calmar_ratio :=
    if 0 < max_drawdown_percent then
      (net_profit / cfg.initial_capital * 100) / max_drawdown_percent
    else 0
  { symbol := symbol
    timeframe := timeframe
    start_date := 0
    end_date := bars.length - 1
    duration_days := bars.length - 1
    initial_capital := cfg.initial_capital
    final_capital := st.capital
    total_return := net_profit
    total_return_percent := net_profit / cfg.initial_capital * 100
    total_trades := total_trades
    winning_trades := winning_trades
    losing_trades := losing_trades
    breakeven_trades := breakeven_trades
    win_rate := win_rate
    gross_profit := gross_profit
    gross_loss := gross_loss
    net_profit := net_profit
    profit_factor := profit_factor
    average_win := average_win
    average_loss := average_loss
    average_rr := average_rr
    largest_win := largest_win
    largest_loss := largest_loss
    max_drawdown := max_drawdown
    max_drawdown_percent := max_drawdown_percent
    sharpe_ratio := sharpe_ratio
    sortino_ratio := sortino_ratio
    calmar_ratio := calmar_ratio
    equity_curve := st.equity_curve
    equity_dates := st.equity_dates
    drawdown_curve := drawdown
    trades := st.trades }

/-- Mirror of `Backtester.run_backtest`.  The `prior` argument is the
instance's mutable state before the call; the source overwrites it entirely
in the reset block, so the run never reads it.  On an empty bar series the
source raises `IndexError` at `df.index[0]`, modelled by `none`.  On success
the pair holds the returned `BacktestResult` and the instance state after
the run. -/
def run_backtest (cfg : Config) (sqrtQ : ℚ → ℚ) (prior : BtState)
    (bars : List Row) (symbol : String) (f : List Row → Option SignalProposal)
    (timeframe : String) : Option (BacktestResult × BtState) :=
  match bars with
  | [] => none
  | _ :: _ =>
    let st := loopState cfg symbol bars f bars.length
    let st := closeAllOpen cfg st (bars.getLast?.getD { }).close (bars.length - 1)
    some (calculate_results cfg sqrtQ st bars symbol timeframe, st)

/-- C5: `run_backtest` resets all mutable instance state before replaying, so
its output is a function of the configuration, the bar series, the evaluator
and the timeframe alone: two runs from any two prior instance states — in
particular a fresh instance and the state left behind by a previous run of
the same instance — produce identical `BacktestResult` values. -/
theorem run_backtest_deterministic (cfg : Config) (sqrtQ : ℚ → ℚ)
    (prior1 prior2 : BtState) (bars : List Row) (symbol : String)
    (f : List Row → Option SignalProposal) (timeframe : String) :
    (run_backtest cfg sqrtQ prior1 bars symbol f timeframe).map Prod.fst =
      (run_backtest cfg sqrtQ prior2 bars symbol f timeframe).map Prod.fst := rfl

/-- C7: on an empty bar series `run_backtest` does not return a zero-trade
result — it fails (the source raises `IndexError` executing
`self.equity_dates = [df.index[0]]` before the bar loop). -/
theorem run_backtest_empty_fails :
    run_backtest { } (fun q => q) (resetState { }) [] "BTCUSDT" (fun _ => none) "5m"
      = none := rfl

theorem varQ_singleton (x : ℚ) : varQ [x] = 0 := by
  simp [varQ, meanQ]

/-- C6: the statistics calculation is total and resolves each degenerate
denominator to 0 — win rate when there are no winning trades (hence for an
empty trade list), profit factor when gross loss is 0, Sharpe when there are
fewer than two return samples or the return standard deviation is 0, Sortino
when no negative returns exist, and Calmar when the maximum drawdown is 0. -/
theorem stats_degenerate_defaults (cfg : Config) (sqrtQ : ℚ → ℚ) (st : BtState)
    (bars : List Row) (symbol timeframe : String) (hsq : sqrtQ 0 = 0) :
    ((st.trades.filter fun t => 0 < t.pnl).length = 0 →
      (calculate_results cfg sqrtQ st bars symbol timeframe).win_rate = 0) ∧
    (gross_loss_of st.trades = 0 →
      (calculate_results cfg sqrtQ st bars symbol timeframe).profit_factor = 0) ∧
    ((returnsOf st.equity_curve).length < 2 →
      (calculate_results cfg sqrtQ st bars symbol timeframe).sharpe_ratio = 0) ∧
    (stdQ sqrtQ (returnsOf st.equity_curve) = 0 →
      (calculate_results cfg sqrtQ st bars symbol timeframe).sharpe_ratio = 0) ∧
    ((returnsOf st.equity_curve).filter (fun r => r < 0) = [] →
      (calculate_results cfg sqrtQ st bars symbol timeframe).sortino_ratio = 0) ∧
    (|minQ (drawdownCurve st.equity_curve)| = 0 →
      (calculate_results cfg sqrtQ st bars symbol timeframe).calmar_ratio = 0) := by
  refine ⟨fun hw => ?_, fun hg => ?_, fun hlen => ?_, fun hstd => ?_,
    fun hneg => ?_, fun hdd => ?_⟩
  · simp [calculate_results, hw]
  · simp [calculate_results, hg]
  · interval_cases h : (returnsOf st.equity_curve).length
    · have hnil : returnsOf st.equity_curve = [] := List.length_eq_zero.mp h
      simp [calculate_results, hnil]
    · obtain ⟨r, hr⟩ := List.length_eq_one.mp h
      have : stdQ sqrtQ (returnsOf st.equity_curve) = 0 := by
        rw [hr, stdQ, varQ_singleton, hsq]
      simp [calculate_results, this]
  · simp [calculate_results, hstd]
  · simp [calculate_results, hneg]
  · simp [calculate_results, hdd]

/-- Concrete degenerate state for the C6 witness: no trades, flat two-point
equity curve. -/
def stateC6 : BtState :=
  { capital := 10000
    equity_curve := [10000, 10000]
    equity_dates := [0, 0]
    trades := []
    open_trades := [] }

theorem stats_degenerate_defaults_witness :
    (calculate_results { } id stateC6 [] "BTCUSDT" "5m").win_rate = 0 ∧
    (calculate_results { } id stateC6 [] "BTCUSDT" "5m").profit_factor = 0 ∧
    (calculate_results { } id stateC6 [] "BTCUSDT" "5m").sharpe_ratio = 0 ∧
    (calculate_results { } id stateC6 [] "BTCUSDT" "5m").sortino_ratio = 0 ∧
    (calculate_results { } id stateC6 [] "BTCUSDT" "5m").calmar_ratio = 0 := by
  have h := stats_degenerate_defaults { } id stateC6 [] "BTCUSDT" "5m" rfl
  refine ⟨h.1 ?_, h.2.1 ?_, h.2.2.1 ?_, h.2.2.2.2.1 ?_, h.2.2.2.2.2 ?_⟩
  · simp [stateC6]
  · simp [stateC6, gross_loss_of]
  · norm_num [stateC6, returnsOf]
  · norm_num [stateC6, returnsOf]
  · norm_num [stateC6, drawdownCurve, runningMax, runningMaxAux, minQ]

/-- Bullish EMA crossover on the latest two bars:
`previous.ema_8 <= previous.ema_21 and current.ema_8 > current.ema_21`. -/
def ema_cross_bullish (previous current : Row) : Prop :=
  previous.ema_8 ≤ previous.ema_21 ∧ current.ema_21 < current.ema_8

instance (previous current : Row) : Decidable (ema_cross_bullish previous current) := by
  unfold ema_cross_bullish
  exact instDecidableAnd

/-- Bearish EMA crossover on the latest two bars:
`previous.ema_8 >= previous.ema_21 and current.ema_8 < current.ema_21`. -/
def ema_cross_bearish (previous current : Row) : Prop :=
  previous.ema_21 ≤ previous.ema_8 ∧ current.ema_8 < current.ema_21

instance (previous current : Row) : Decidable (ema_cross_bearish previous current) := by
  unfold ema_cross_bearish
  exact instDecidableAnd

/-- The LONG confirmation count of `optimized_ema_crossover_signals`: the
mandatory crossover counts 1, then price above EMA50, trend-strength distance
above 0.5%, RSI strictly inside (30, 70), volume above 1.5x its rolling
average (ratio 0 when the average is non-positive), and price above EMA200. -/
def long_confirmations (current : Row) : Nat :=
  1 + (if current.ema_50 < current.close then 1 else 0)
    + (if (0.5 : ℚ) < (current.close - current.ema_50) / current.ema_50 * 100 then 1 else 0)
    + (if 30 < current.rsi ∧ current.rsi < 70 then 1 else 0)
    + (if (1.5 : ℚ) < (if 0 < current.volume_ma then current.volume / current.volume_ma else 0)
        then 1 else 0)
    + (if current.ema_200 < current.close then 1 else 0)

/-- The SHORT confirmation count of `optimized_ema_crossover_signals`,
directionally mirrored. -/
def short_confirmations (current : Row) : Nat :=
  1 + (if current.close < current.ema_50 then 1 else 0)
    + (if (0.5 : ℚ) < (current.ema_50 - current.close) / current.ema_50 * 100 then 1 else 0)
    + (if 30 < current.rsi ∧ current.rsi < 70 then 1 else 0)
    + (if (1.5 : ℚ) < (if 0 < current.volume_ma then current.volume / current.volume_ma else 0)
        then 1 else 0)
    + (if current.close < current.ema_200 then 1 else 0)

/-- Mirror of `optimized_ema_crossover_signals`: needs at least two bars, the
EMA-8/EMA-21 crossover on the latest two bars is mandatory, and a proposal is
emitted only with at least 5 of 6 confirmations; stop at 2x ATR and targets
at 3x/5x/7x ATR, mirrored for SHORT. -/
def optimized_ema_crossover_signals (df : List Row) : Option SignalProposal :=
  match df.reverse with
  | current :: previous :: _ =>
    if ¬ (ema_cross_bullish previous current ∨ ema_cross_bearish previous current) then
      none
    else if ema_cross_bullish previous current then
      let confirmations := long_confirmations current
      if 5 ≤ confirmations then
        let entry_price := current.close
        let atr := current.atr
        some { side := Side.LONG
               entry_price := entry_price
               stop_loss := entry_price - atr * 2
               take_profits := [entry_price + atr * 3, entry_price + atr * 5, entry_price + atr * 7]
               confirmations := confirmations }
      else none
    else if ema_cross_bearish previous current then
      let confirmations := short_confirmations current
      if 5 ≤ confirmations then
        let entry_price := current.close
        let atr := current.atr
        some { side := Side.SHORT
               entry_price := entry_price
               stop_loss := entry_price + atr * 2
               take_profits := [entry_price - atr * 3, entry_price - atr * 5, entry_price - atr * 7]
               confirmations := confirmations }
      else none
    else none
  | _ => none

/-- C8: with at least two bars, the optimized EMA-crossover evaluator returns
no proposal when the mandatory crossover is absent, whatever the auxiliary
confirmations; when a crossover is present, a proposal is emitted exactly when
the confirmation count reaches 5 of 6. -/
theorem optimized_signals_threshold (df : List Row) (current previous : Row)
    (rest : List Row) (hrev : df.reverse = current :: previous :: rest) :
    (¬ (ema_cross_bullish previous current ∨ ema_cross_bearish previous current) →
      optimized_ema_crossover_signals df = none) ∧
    (ema_cross_bullish previous current →
      ((optimized_ema_crossover_signals df).isSome ↔ 5 ≤ long_confirmations current)) ∧
    (ema_cross_bearish previous current →
      ((optimized_ema_crossover_signals df).isSome ↔ 5 ≤ short_confirmations current)) := by
  have hdf : df = (current :: previous :: rest).reverse := by
    rw [← hrev, List.reverse_reverse]
  subst hdf
  refine ⟨fun h => ?_, fun h => ?_, fun h => ?_⟩
  · simp only [optimized_ema_crossover_signals, List.reverse_reverse]
    rw [if_pos h]
  · have hnn : ¬ ¬ (ema_cross_bullish previous current ∨ ema_cross_bearish previous current) :=
      not_not_intro (Or.inl h)
    simp only [optimized_ema_crossover_signals, List.reverse_reverse]
    rw [if_neg hnn, if_pos h]
    by_cases hc : 5 ≤ long_confirmations current <;> simp [hc]
  · have hnn : ¬ ¬ (ema_cross_bullish previous current ∨ ema_cross_bearish previous current) :=
      not_not_intro (Or.inr h)
    have hnb : ¬ ema_cross_bullish previous current := fun hb => lt_asymm h.2 hb.2
    simp only [optimized_ema_crossover_signals, List.reverse_reverse]
    rw [if_neg hnn, if_neg hnb, if_pos h]
    by_cases hc : 5 ≤ short_confirmations current <;> simp [hc]

/-- Previous bar of the C8 witness: EMA8 equal to EMA21. -/
def prevC8 : Row := { ema_8 := 1, ema_21 := 1 }

/-- Current bar of the C8 witness: bullish crossover with exactly 5 of 6
confirmations (everything passes except the EMA200 alignment). -/
def curC8 : Row :=
  { close := 100, volume := 2, ema_8 := 2, ema_21 := 1, ema_50 := 98
    ema_200 := 200, rsi := 50, atr := 1, volume_ma := 1 }

theorem optimized_signals_threshold_witness :
    long_confirmations curC8 = 5 ∧
    (optimized_ema_crossover_signals [prevC8, curC8]).isSome = true := by
  have hconf : long_confirmations curC8 = 5 := by
    norm_num [long_confirmations, curC8]
  have h := optimized_signals_threshold [prevC8, curC8] curC8 prevC8 [] rfl
  refine ⟨hconf, (h.2.1 ?_).mpr (by rw [hconf])⟩
  constructor <;> norm_num [prevC8, curC8]

/-- A DataFrame as seen by `stochastic_rsi_strategy`: the OHLCV+indicator
rows plus the three Stochastic-RSI columns, absent (`none`) until the
strategy itself assigns them. -/
structure StochFrame where
  rows : List Row
  stoch_rsi : Option (List ℚ) := none
  stoch_rsi_k : Option (List ℚ) := none
  stoch_rsi_d : Option (List ℚ) := none
deriving DecidableEq, Repr

/-- Last element of a series (`iloc[-1]`), 0 when absent. -/
def lastD (l : List ℚ) : ℚ := l.getLast?.getD 0

/-- Second-to-last element of a series (`iloc[-2]`), 0 when absent. -/
def secondLastD (l : List ℚ) : ℚ :=
  match l.reverse with
  | _ :: y :: _ => y
  | _ => 0

/-- Mirror of `stochastic_rsi_strategy` (debug=False path).  The Stochastic
RSI computation itself comes from the external `ta` library and is passed in
as `stochCalc` (raw 0-1 series for stochrsi, %K and %D); the strategy scales
them by 100 and ASSIGNS THEM AS COLUMNS OF THE INPUT FRAME (the in-place
`df['stoch_rsi'] = ...` writes of the source), then scores six confirmations
and requires 4 of 6.  Returns the (possibly mutated) frame together with the
optional proposal. -/
def stochastic_rsi_strategy (stochCalc : List ℚ → List ℚ × List ℚ × List ℚ)
    (df : StochFrame) : StochFrame × Option SignalProposal :=
  if df.rows.length < 30 then (df, none)
  else
    let closes := df.rows.map Row.close
    let raw := stochCalc closes
    let stoch_rsi := raw.1.map (fun x => x * 100)
    let stoch_rsi_k := raw.2.1.map (fun x => x * 100)
    let stoch_rsi_d := raw.2.2.map (fun x => x * 100)
    let df1 : StochFrame :=
      { df with
          stoch_rsi := some stoch_rsi
          stoch_rsi_k := some stoch_rsi_k
          stoch_rsi_d := some stoch_rsi_d }
    match df1.rows.reverse with
    | current :: _previous :: _ =>
      let stoch_rsi_val := lastD stoch_rsi
      let k_val := lastD stoch_rsi_k
      let d_val := lastD stoch_rsi_d
      let prev_val := secondLastD stoch_rsi
      let prev_k := secondLastD stoch_rsi_k
      let prev_d := secondLastD stoch_rsi_d
      if stoch_rsi_val ≤ 30 ∨ (prev_val < 25 ∧ 25 ≤ stoch_rsi_val) then
        let vol_ma := meanQ ((df1.rows.map Row.volume).reverse.take 20)
        let confirmations :=
          (if stoch_rsi_val ≤ 30 then 1 else 0)
          + (if prev_val < 25 ∧ 25 ≤ stoch_rsi_val then 1 else 0)
          + (if prev_k ≤ prev_d ∧ d_val < k_val then 1 else 0)
          + (if current.ema_50 < current.ema_21 ∨
                |current.ema_21 - current.ema_50| / current.ema_50 < 0.005 then 1 else 0)
          + (if vol_ma * 1 < current.volume then 1 else 0)
          + (if 20 < current.rsi then 1 else 0)
        if 4 ≤ confirmations then
          let entry_price := current.close
          let atr := current.atr
          (df1, some { side := Side.LONG
                       entry_price := entry_price
                       stop_loss := entry_price - atr * 1.5
                       take_profits := [entry_price + atr * 1.5, entry_price + atr * 2.5,
                         entry_price + atr * 4]
                       confirmations := confirmations })
        else (df1, none)
      else if 75 ≤ stoch_rsi_val ∨ (75 < prev_val ∧ stoch_rsi_val ≤ 75) then
        let vol_ma := meanQ ((df1.rows.map Row.volume).reverse.take 20)
        let confirmations :=
          (if 75 ≤ stoch_rsi_val then 1 else 0)
          + (if 75 < prev_val ∧ stoch_rsi_val ≤ 75 then 1 else 0)
          + (if prev_d ≤ prev_k ∧ k_val < d_val then 1 else 0)
          + (if current.ema_21 < current.ema_50 ∨
                |current.ema_21 - current.ema_50| / current.ema_50 < 0.005 then 1 else 0)
          + (if vol_ma * 1 < current.volume then 1 else 0)
          + (if current.rsi < 80 then 1 else 0)
        if 4 ≤ confirmations then
          let entry_price := current.close
          let atr := current.atr
          (df1, some { side := Side.SHORT
                       entry_price := entry_price
                       stop_loss := entry_price + atr * 1.5
                       take_profits := [entry_price - atr * 1.5, entry_price - atr * 2.5,
                         entry_price - atr * 4]
                       confirmations := confirmations })
        else (df1, none)
      else (df1, none)
    | _ => (df1, none)

theorem stochastic_rsi_strategy_sets_columns
    (stochCalc : List ℚ → List ℚ × List ℚ × List ℚ) (df : StochFrame)
    (h : ¬ df.rows.length < 30) :
    (stochastic_rsi_strategy stochCalc df).1.stoch_rsi =
      some ((stochCalc (df.rows.map Row.close)).1.map (fun x => x * 100)) := by
  unfold stochastic_rsi_strategy
  rw [if_neg h]
  dsimp only
  split <;> first
    | rfl
    | (split_ifs <;> rfl)

/-- A stand-in Stochastic-RSI computation for the concrete witness frame:
constant-price history gives a degenerate (all-zero) oscillator. -/
def zeroStoch : List ℚ → List ℚ × List ℚ × List ℚ :=
  fun closes => (closes.map (fun _ => 0), closes.map (fun _ => 0), closes.map (fun _ => 0))

/-- A 30-bar constant frame with no Stochastic-RSI columns, as handed to the
evaluator by the replay engine. -/
def frameC9 : StochFrame :=
  { rows := List.replicate 30
      { high := 1, low := 1, close := 1, volume := 1, ema_8 := 1, ema_21 := 1
        ema_50 := 1, ema_200 := 1, rsi := 50, atr := 1, volume_ma := 1 } }

/-- C9: `stochastic_rsi_strategy` is NOT side-effect-free — on a 30-bar history
without Stochastic-RSI columns it returns a frame whose `stoch_rsi` column has
been written, while the frame it was given had none: the evaluator modifies
the bar history it was passed. -/
theorem stochastic_rsi_strategy_mutates_frame :
    (stochastic_rsi_strategy zeroStoch frameC9).1.stoch_rsi =
        some (List.replicate 30 (0 : ℚ)) ∧
    frameC9.stoch_rsi = none := by
  constructor
  · have h := stochastic_rsi_strategy_sets_columns zeroStoch frameC9 (by norm_num [frameC9])
    rw [h]
    simp [frameC9, zeroStoch, List.map_replicate]
  · rfl

theorem foldlPreserve {α β : Type _} (P : α → Prop) (f : α → β → α)
    (hf : ∀ s b, P s → P (f s b)) :
    ∀ (l : List β) (s : α), P s → P (l.foldl f s) := by
  intro l
  induction l with
  | nil => intro s hs; exact hs
  | cons a t ih => intro s hs; exact ih (f s a) (hf s a hs)

theorem exit_trade_open_length (cfg : Config) (st : BtState) (trade : BacktestTrade)
    (p : ℚ) (ts : Nat) (r : String) :
    (exit_trade cfg st trade p ts r).open_trades.length ≤ st.open_trades.length :=
  List.Sublist.length_le (List.erase_sublist _ _)

theorem exit_trade_capital_sum (cfg : Config) (st : BtState) (trade : BacktestTrade)
    (p : ℚ) (ts : Nat) (r : String) :
    (exit_trade cfg st trade p ts r).capital -
        ((exit_trade cfg st trade p ts r).trades.map BacktestTrade.pnl).sum =
      st.capital - (st.trades.map BacktestTrade.pnl).sum := by
  simp only [exit_trade, List.map_append, List.sum_append, List.map_cons, List.map_nil,
    List.sum_cons, List.sum_nil]
  ring

theorem exit_trade_all_closed (cfg : Config) (st : BtState) (trade : BacktestTrade)
    (p : ℚ) (ts : Nat) (r : String)
    (h : ∀ t ∈ st.trades, t.status = "CLOSED") :
    ∀ t ∈ (exit_trade cfg st trade p ts r).trades, t.status = "CLOSED" := by
  intro t ht
  simp only [exit_trade, List.mem_append, List.mem_singleton] at ht
  rcases ht with h1 | h2
  · exact h t h1
  · subst h2; rfl

theorem exit_trade_trades_origin (cfg : Config) (st : BtState) (trade : BacktestTrade)
    (p : ℚ) (ts : Nat) (r : String) :
    ∀ t ∈ (exit_trade cfg st trade p ts r).trades, t ∈ st.trades ∨ t.exit_reason = r := by
  intro t ht
  simp only [exit_trade, List.mem_append, List.mem_singleton] at ht
  rcases ht with h1 | h2
  · exact Or.inl h1
  · subst h2; exact Or.inr rfl

theorem exit_trade_equity (cfg : Config) (st : BtState) (trade : BacktestTrade)
    (p : ℚ) (ts : Nat) (r : String) :
    (exit_trade cfg st trade p ts r).equity_curve = st.equity_curve := rfl

theorem exit_trade_trades_length (cfg : Config) (st : BtState) (trade : BacktestTrade)
    (p : ℚ) (ts : Nat) (r : String) :
    (exit_trade cfg st trade p ts r).trades.length = st.trades.length + 1 := by
  simp [exit_trade]

theorem check_exit_fst_cases (cfg : Config) (st : BtState) (trade : BacktestTrade)
    (c hi lo : ℚ) (ts : Nat) :
    (check_exit cfg st trade c hi lo ts).1 = st ∨
      ∃ p r, (check_exit cfg st trade c hi lo ts).1 = exit_trade cfg st trade p ts r := by
  unfold check_exit
  split
  · split
    · exact Or.inr ⟨_, _, rfl⟩
    · split
      · exact Or.inr ⟨_, _, rfl⟩
      · exact Or.inl rfl
  · split
    · exact Or.inr ⟨_, _, rfl⟩
    · split
      · exact Or.inr ⟨_, _, rfl⟩
      · exact Or.inl rfl

theorem check_exit_preserve (P : BtState → Prop) (cfg : Config)
    (hexit : ∀ s t p ts r, P s → P (exit_trade cfg s t p ts r))
    (st : BtState) (trade : BacktestTrade) (c hi lo : ℚ) (ts : Nat) (hst : P st) :
    P (check_exit cfg st trade c hi lo ts).1 := by
  rcases check_exit_fst_cases cfg st trade c hi lo ts with h1 | ⟨p, r, h2⟩
  · rw [h1]; exact hst
  · rw [h2]; exact hexit st trade p ts r hst

theorem exitsPhase_preserve (P : BtState → Prop) (cfg : Config) (row : Row) (i : Nat)
    (hexit : ∀ s t p ts r, P s → P (exit_trade cfg s t p ts r))
    (st : BtState) (hst : P st) : P (exitsPhase cfg row i st) :=
  foldlPreserve P _
    (fun s t hs => check_exit_preserve P cfg hexit s t row.close row.high row.low i hs)
    st.open_trades st hst

theorem enter_trade_fields (cfg : Config) (st : BtState) (ts : Nat) (symbol : String)
    (side : Side) (e sl : ℚ) (tps : List ℚ) :
    (enter_trade cfg st ts symbol side e sl tps).capital = st.capital ∧
    (enter_trade cfg st ts symbol side e sl tps).trades = st.trades ∧
    (enter_trade cfg st ts symbol side e sl tps).equity_curve = st.equity_curve ∧
    (enter_trade cfg st ts symbol side e sl tps).open_trades.length ≤
      st.open_trades.length + 1 := by
  unfold enter_trade
  dsimp only
  split
  · exact ⟨rfl, rfl, rfl, Nat.le_succ _⟩
  · refine ⟨rfl, rfl, rfl, ?_⟩
    simp

theorem signalPhase_cases (cfg : Config) (symbol : String) (bars : List Row)
    (f : List Row → Option SignalProposal) (i : Nat) (st : BtState) :
    signalPhase cfg symbol bars f i st = st ∨
      ∃ sig : SignalProposal, st.open_trades.length = 0 ∧
        signalPhase cfg symbol bars f i st =
          enter_trade cfg st i symbol sig.side sig.entry_price sig.stop_loss
            sig.take_profits := by
  unfold signalPhase
  split
  · split
    · split_ifs with hg
      · exact Or.inr ⟨_, hg, rfl⟩
      · exact Or.inl rfl
    · exact Or.inl rfl
  · exact Or.inl rfl

theorem signalPhase_refuses (cfg : Config) (symbol : String) (bars : List Row)
    (f : List Row → Option SignalProposal) (i : Nat) (st : BtState)
    (h : st.open_trades.length ≠ 0) :
    signalPhase cfg symbol bars f i st = st := by
  rcases signalPhase_cases cfg symbol bars f i st with h1 | ⟨sig, hg, _⟩
  · exact h1
  · exact absurd hg h

theorem signalPhase_fields (cfg : Config) (symbol : String) (bars : List Row)
    (f : List Row → Option SignalProposal) (i : Nat) (st : BtState) :
    (signalPhase cfg symbol bars f i st).capital = st.capital ∧
    (signalPhase cfg symbol bars f i st).trades = st.trades ∧
    (signalPhase cfg symbol bars f i st).equity_curve = st.equity_curve := by
  rcases signalPhase_cases cfg symbol bars f i st with h | ⟨sig, hg, h⟩
  · rw [h]; exact ⟨rfl, rfl, rfl⟩
  · rw [h]
    obtain ⟨hc, ht, he, _⟩ := enter_trade_fields cfg st i symbol sig.side sig.entry_price
      sig.stop_loss sig.take_profits
    exact ⟨hc, ht, he⟩

/-- The replay-engine invariant: at most one open trade, every realised trade
CLOSED, and capital in balance with realised P&L. -/
def EngineInv (cfg : Config) (st : BtState) : Prop :=
  st.open_trades.length ≤ 1 ∧
  (∀ t ∈ st.trades, t.status = "CLOSED") ∧
  st.capital = cfg.initial_capital + (st.trades.map BacktestTrade.pnl).sum

theorem exit_trade_inv (cfg : Config) (s : BtState) (t : BacktestTrade) (p : ℚ)
    (ts : Nat) (r : String) (h : EngineInv cfg s) :
    EngineInv cfg (exit_trade cfg s t p ts r) := by
  refine ⟨le_trans (exit_trade_open_length cfg s t p ts r) h.1,
    exit_trade_all_closed cfg s t p ts r h.2.1, ?_⟩
  have hsum := exit_trade_capital_sum cfg s t p ts r
  have hc := h.2.2
  linarith

theorem EngineInv_equity_update (cfg : Config) (st : BtState) (ec : List ℚ)
    (ed : List Nat) :
    EngineInv cfg { st with equity_curve := ec, equity_dates := ed } ↔ EngineInv cfg st :=
  Iff.rfl

theorem processBar_inv (cfg : Config) (symbol : String) (bars : List Row)
    (f : List Row → Option SignalProposal) (st : BtState) (i : Nat) (row : Row)
    (h : EngineInv cfg st) :
    EngineInv cfg (processBar cfg symbol bars f st i row) := by
  have h1 : EngineInv cfg (exitsPhase cfg row i st) :=
    exitsPhase_preserve (EngineInv cfg) cfg row i
      (fun s t p ts r hs => exit_trade_inv cfg s t p ts r hs) st h
  have h2 : EngineInv cfg (signalPhase cfg symbol bars f i (exitsPhase cfg row i st)) := by
    rcases signalPhase_cases cfg symbol bars f i (exitsPhase cfg row i st) with
      heq | ⟨sig, hg, heq⟩
    · rw [heq]; exact h1
    · rw [heq]
      obtain ⟨hc, ht, he, hl⟩ := enter_trade_fields cfg (exitsPhase cfg row i st) i symbol
        sig.side sig.entry_price sig.stop_loss sig.take_profits
      refine ⟨?_, ?_, ?_⟩
      · omega
      · intro t ht2; rw [ht] at ht2; exact h1.2.1 t ht2
      · rw [hc, ht]; exact h1.2.2
  exact h2

theorem resetState_inv (cfg : Config) : EngineInv cfg (resetState cfg) := by
  refine ⟨?_, ?_, ?_⟩ <;> simp [resetState]

theorem loopState_inv (cfg : Config) (symbol : String) (bars : List Row)
    (f : List Row → Option SignalProposal) (n : Nat) :
    EngineInv cfg (loopState cfg symbol bars f n) :=
  foldlPreserve (EngineInv cfg) _
    (fun s p hs => processBar_inv cfg symbol bars f s p.1 p.2 hs)
    (bars.enum.take n) (resetState cfg) (resetState_inv cfg)

theorem closeAllOpen_inv (cfg : Config) (st : BtState) (p : ℚ) (ts : Nat)
    (h : EngineInv cfg st) :
    EngineInv cfg (closeAllOpen cfg st p ts) :=
  foldlPreserve (EngineInv cfg) _
    (fun s t hs => exit_trade_inv cfg s t p ts "END_OF_DATA" hs)
    st.open_trades st h

theorem closeAllOpen_open_empty (cfg : Config) (st : BtState) (p : ℚ) (ts : Nat)
    (h : st.open_trades.length ≤ 1) :
    (closeAllOpen cfg st p ts).open_trades = [] := by
  unfold closeAllOpen
  cases hop : st.open_trades with
  | nil =>
    simpa using hop
  | cons t rest =>
    have hrest : rest = [] := by
      rw [hop] at h
      simpa using h
    subst hrest
    simp only [List.foldl_cons, List.foldl_nil]
    simp [exit_trade, hop]

theorem closeAllOpen_trades_origin (cfg : Config) (st : BtState) (p : ℚ) (ts : Nat) :
    ∀ t ∈ (closeAllOpen cfg st p ts).trades,
      t ∈ st.trades ∨ t.exit_reason = "END_OF_DATA" := by
  refine foldlPreserve
    (fun s => ∀ t ∈ s.trades, t ∈ st.trades ∨ t.exit_reason = "END_OF_DATA")
    _ ?_ st.open_trades st (fun t ht => Or.inl ht)
  intro s b hs t ht
  rcases exit_trade_trades_origin cfg s b p ts "END_OF_DATA" t ht with h1 | h2
  · exact hs t h1
  · exact Or.inr h2

theorem run_backtest_some_eq (cfg : Config) (sqrtQ : ℚ → ℚ) (prior : BtState)
    (bars : List Row) (symbol : String) (f : List Row → Option SignalProposal)
    (timeframe : String) (pr : BacktestResult × BtState)
    (hpr : run_backtest cfg sqrtQ prior bars symbol f timeframe = some pr) :
    pr.2 = closeAllOpen cfg (loopState cfg symbol bars f bars.length)
        (bars.getLast?.getD { }).close (bars.length - 1) ∧
    pr.1 = calculate_results cfg sqrtQ pr.2 bars symbol timeframe := by
  cases bars with
  | nil => simp [run_backtest] at hpr
  | cons b bs =>
    simp only [run_backtest] at hpr
    injection hpr with hpr
    subst hpr
    exact ⟨rfl, rfl⟩

/-- C4: throughout any run, at most one trade is open at every bar boundary
(the signal phase refuses a new entry whenever the open-trade list is
non-empty), and after `run_backtest` returns, no trade is left OPEN: the
final state's open-trade list is empty, every recorded trade is CLOSED, and
any trade not already closed during the bar loop was force-closed with
reason END_OF_DATA. -/
theorem single_open_position_invariant (cfg : Config) (sqrtQ : ℚ → ℚ)
    (prior : BtState) (bars : List Row) (symbol : String)
    (f : List Row → Option SignalProposal) (timeframe : String) :
    (∀ n, (loopState cfg symbol bars f n).open_trades.length ≤ 1) ∧
    (∀ st i, st.open_trades.length ≠ 0 → signalPhase cfg symbol bars f i st = st) ∧
    (∀ pr, run_backtest cfg sqrtQ prior bars symbol f timeframe = some pr →
      pr.2.open_trades = [] ∧ pr.1.trades = pr.2.trades ∧
      (∀ t ∈ pr.2.trades, t.status = "CLOSED") ∧
      (∀ t ∈ pr.2.trades,
        t ∈ (loopState cfg symbol bars f bars.length).trades ∨
          t.exit_reason = "END_OF_DATA")) := by
  refine ⟨fun n => (loopState_inv cfg symbol bars f n).1,
    fun st i h => signalPhase_refuses cfg symbol bars f i st h, fun pr hpr => ?_⟩
  obtain ⟨h2, h1⟩ := run_backtest_some_eq cfg sqrtQ prior bars symbol f timeframe pr hpr
  have hloop := loopState_inv cfg symbol bars f bars.length
  have hinv : EngineInv cfg pr.2 := by
    rw [h2]; exact closeAllOpen_inv _ _ _ _ hloop
  refine ⟨?_, ?_, hinv.2.1, ?_⟩
  · rw [h2]; exact closeAllOpen_open_empty _ _ _ _ hloop.1
  · rw [h1]; rfl
  · rw [h2]; exact closeAllOpen_trades_origin _ _ _ _

/-- Square root stand-in used by concrete witness runs (its value is
irrelevant to the properties being witnessed). -/
def sqrtW : ℚ → ℚ := fun q => q

/-- Single bar of the concrete witness run. -/
def barW : Row := { close := 1 }

/-- A one-bar run with an evaluator that never proposes. -/
def runW : Option (BacktestResult × BtState) :=
  run_backtest { } sqrtW (resetState { }) [barW] "BTCUSDT" (fun _ => none) "5m"

def prW : BacktestResult × BtState :=
  runW.getD (calculate_results { } sqrtW (resetState { }) [] "BTCUSDT" "5m", resetState { })

theorem single_open_position_invariant_witness :
    (loopState { } "BTCUSDT" [barW] (fun _ => none) 1).open_trades.length ≤ 1 ∧
    prW.2.open_trades = [] := by
  have h := single_open_position_invariant { } sqrtW (resetState { }) [barW] "BTCUSDT"
    (fun _ => none) "5m"
  exact ⟨h.1 1, (h.2.2 prW rfl).1⟩

theorem check_exit_trades_growth (cfg : Config) (s : BtState) (t : BacktestTrade)
    (c hi lo : ℚ) (ts : Nat) :
    (check_exit cfg s t c hi lo ts).1 = s ∨
      (check_exit cfg s t c hi lo ts).1.trades.length = s.trades.length + 1 := by
  rcases check_exit_fst_cases cfg s t c hi lo ts with h1 | ⟨p, r, h2⟩
  · exact Or.inl h1
  · rw [h2]; exact Or.inr (exit_trade_trades_length cfg s t p ts r)

theorem exitsFold_len_mono (cfg : Config) (c hi lo : ℚ) (ts : Nat) :
    ∀ (lst : List BacktestTrade) (s : BtState),
      s.trades.length ≤
        (lst.foldl (fun s t => (check_exit cfg s t c hi lo ts).1) s).trades.length := by
  intro lst
  induction lst with
  | nil => intro s; exact le_refl _
  | cons t rest ih =>
    intro s
    rw [List.foldl_cons]
    rcases check_exit_trades_growth cfg s t c hi lo ts with h1 | h2
    · rw [h1]; exact ih s
    · calc s.trades.length ≤ s.trades.length + 1 := Nat.le_succ _
        _ = (check_exit cfg s t c hi lo ts).1.trades.length := h2.symm
        _ ≤ _ := ih _

theorem exitsFold_id_of_trades_eq (cfg : Config) (c hi lo : ℚ) (ts : Nat) :
    ∀ (lst : List BacktestTrade) (s : BtState),
      (lst.foldl (fun s t => (check_exit cfg s t c hi lo ts).1) s).trades = s.trades →
      lst.foldl (fun s t => (check_exit cfg s t c hi lo ts).1) s = s := by
  intro lst
  induction lst with
  | nil => intro s _; rfl
  | cons t rest ih =>
    intro s heq
    rw [List.foldl_cons] at heq ⊢
    rcases check_exit_trades_growth cfg s t c hi lo ts with h1 | h2
    · rw [h1] at heq ⊢
      exact ih s heq
    · exfalso
      have hmono := exitsFold_len_mono cfg c hi lo ts rest (check_exit cfg s t c hi lo ts).1
      have hlen := congrArg List.length heq
      omega

theorem exitsPhase_id_of_trades_eq (cfg : Config) (row : Row) (i : Nat) (st : BtState)
    (h : (exitsPhase cfg row i st).trades = st.trades) :
    exitsPhase cfg row i st = st :=
  exitsFold_id_of_trades_eq cfg row.close row.high row.low i st.open_trades st h

/-- C10: capital is conserved through trade accounting — on any successful
run the result's final capital is exactly the initial capital plus the sum of
net P&L (fees included in each trade's pnl) over the result's trade list;
moreover a bar step that closes no trade leaves capital unchanged, and every
bar step appends exactly the post-step capital to the equity curve, so the
equity curve is constant across bars on which no trade closes. -/
theorem capital_conservation (cfg : Config) (sqrtQ : ℚ → ℚ) (prior : BtState)
    (bars : List Row) (symbol : String) (f : List Row → Option SignalProposal)
    (timeframe : String) :
    (∀ pr, run_backtest cfg sqrtQ prior bars symbol f timeframe = some pr →
      pr.1.final_capital =
        cfg.initial_capital + (pr.1.trades.map BacktestTrade.pnl).sum) ∧
    (∀ st i row, (processBar cfg symbol bars f st i row).trades = st.trades →
      (processBar cfg symbol bars f st i row).capital = st.capital) ∧
    (∀ st i row, (processBar cfg symbol bars f st i row).equity_curve =
      st.equity_curve ++ [(processBar cfg symbol bars f st i row).capital]) := by
  refine ⟨fun pr hpr => ?_, fun st i row h => ?_, fun st i row => ?_⟩
  · obtain ⟨h2, h1⟩ := run_backtest_some_eq cfg sqrtQ prior bars symbol f timeframe pr hpr
    have hinv : EngineInv cfg pr.2 := by
      rw [h2]
      exact closeAllOpen_inv _ _ _ _ (loopState_inv cfg symbol bars f bars.length)
    rw [h1]
    exact hinv.2.2
  · have hft : (processBar cfg symbol bars f st i row).trades =
        (exitsPhase cfg row i st).trades :=
      (signalPhase_fields cfg symbol bars f i (exitsPhase cfg row i st)).2.1
    rw [hft] at h
    have hid := exitsPhase_id_of_trades_eq cfg row i st h
    have hcap : (processBar cfg symbol bars f st i row).capital =
        (signalPhase cfg symbol bars f i (exitsPhase cfg row i st)).capital := rfl
    rw [hcap, (signalPhase_fields cfg symbol bars f i (exitsPhase cfg row i st)).1, hid]
  · have he1 : (exitsPhase cfg row i st).equity_curve = st.equity_curve :=
      exitsPhase_preserve (fun s => s.equity_curve = st.equity_curve) cfg row i
        (fun s t p ts r hs => (exit_trade_equity cfg s t p ts r).trans hs) st rfl
    have he2 := (signalPhase_fields cfg symbol bars f i (exitsPhase cfg row i st)).2.2
    show (signalPhase cfg symbol bars f i (exitsPhase cfg row i st)).equity_curve ++
        [(signalPhase cfg symbol bars f i (exitsPhase cfg row i st)).capital] =
      st.equity_curve ++
        [(signalPhase cfg symbol bars f i (exitsPhase cfg row i st)).capital]
    rw [he2, he1]

theorem capital_conservation_witness :
    prW.1.final_capital =
      ({ } : Config).initial_capital + (prW.1.trades.map BacktestTrade.pnl).sum := by
  have h := capital_conservation { } sqrtW (resetState { }) [barW] "BTCUSDT"
    (fun _ => none) "5m"
  exact h.1 prW rfl
